import Mathlib

/-
Verification of the CDR (Content Disarm and Reconstruction) pipeline of the
cc-fetcher repository. The definitions below are a shallow embedding of
src/scripts/cdr_cleaner.py (the Reconstructor) and
src/scripts/validate_output.py (the Validator). JSON values are modelled as
an inductive type; Python dicts are association lists in insertion order;
JSON integer literals are `Int`s and JSON float values (Python's json also
accepts the Infinity, -Infinity and NaN literals) are modelled by `PyFloat`;
the
wall-clock timestamp written into the `cleaned_at` field is passed in as an
explicit `now` argument.
-/

/-- A Python float as produced by `json.load` (a numeric literal with a dot
or exponent, or one of the `Infinity`/`-Infinity`/`NaN` extensions), modelled
by the observations the cleaner makes of it: the three non-finite values are
exact, and a finite float is recorded by its truncation toward zero (what
`int()` returns for it) together with whether its magnitude exceeds 1e15
(what the generic reconstructor tests); the textual form of a finite float is
modelled from the truncation and is exact only for integral-valued floats
(no theorem below evaluates the text of a non-integral float). -/
inductive PyFloat where
  | inf
  | negInf
  | nan
  | finite (t : Int) (big : Bool)

/-- A parsed JSON value. Python dicts keep insertion order, so objects are
association lists of string keys. Integer literals are `num`; float values,
including the non-finite ones Python's json parser accepts, are `fnum`. -/
inductive JValue where
  | null
  | bool (b : Bool)
  | num (n : Int)
  | fnum (f : PyFloat)
  | str (s : String)
  | arr (xs : List JValue)
  | obj (kvs : List (String × JValue))

/-- Dictionary lookup: first binding of the key wins (Python dicts hold each
key at most once, so the first binding is the binding). -/
def jLookup : List (String × JValue) → String → Option JValue
  | [], _ => none
  | (k, v) :: t, key => if k == key then some v else jLookup t key

/-- Python `key in dict`. -/
def jContains (kvs : List (String × JValue)) (key : String) : Bool :=
  (jLookup kvs key).isSome

/-- Python `dict.get(key, default)`. -/
def pyGet (kvs : List (String × JValue)) (key : String) (dflt : JValue) : JValue :=
  (jLookup kvs key).getD dflt

/-- Whether `pat` is a leading segment of `l` (Python `str.startswith`). -/
def isPrefList : List Char → List Char → Bool
  | [], _ => true
  | _ :: _, [] => false
  | p :: ps, c :: cs => p == c && isPrefList ps cs

/-- Python `pat in text` for strings: contiguous-substring containment. -/
def containsSub : List Char → List Char → Bool
  | [], pat => isPrefList pat []
  | c :: t, pat => isPrefList pat (c :: t) || containsSub t pat

/-- Python `text.startswith(pat)` on `String`. -/
def strStarts (s pat : String) : Bool := isPrefList pat.data s.data

/-- Python `str.lower()`, modelled with ASCII case mapping. -/
def lowerChars (l : List Char) : List Char := l.map Char.toLower

/-- Python whitespace (the regex class and `str.strip`), modelled over the
ASCII whitespace characters. -/
def pyWs (c : Char) : Bool :=
  c == ' ' || c == '\t' || c == '\n' || c == '\r' || c == '\x0b' || c == '\x0c'

/-- Characters removed by the cleaner's control-character regex
`[\x00-\x08\x0b\x0c\x0e-\x1f\x7f-\x9f]` (tab, newline and carriage return
survive). -/
def isCtrlStrip (c : Char) : Bool :=
  decide (c.toNat ≤ 8) || c.toNat == 11 || c.toNat == 12 ||
  (decide (14 ≤ c.toNat) && decide (c.toNat ≤ 31)) ||
  (decide (127 ≤ c.toNat) && decide (c.toNat ≤ 159))

/-- Whether the list contains a closing angle bracket. -/
def hasGt (l : List Char) : Bool := l.any (fun c => c == '>')

/-- Model of the third-party call `bleach.clean(value, tags=[], strip=True)`
used by `sanitize_string` (the bleach library is not part of this
repository): a markup span from `<` to the next `>` is dropped, and stray
`&`, `<`, `>` characters are HTML-escaped. On text containing none of
`&`, `<`, `>` this is the identity, which is the only property the theorems
below rely on at concrete inputs. The flag records being inside a tag. -/
def bleachStrip : Bool → List Char → List Char
  | _, [] => []
  | true, c :: t => if c == '>' then bleachStrip false t else bleachStrip true t
  | false, c :: t =>
    if c == '&' then '&' :: 'a' :: 'm' :: 'p' :: ';' :: bleachStrip false t
    else if c == '<' then
      (if hasGt t then bleachStrip true t
       else '&' :: 'l' :: 't' :: ';' :: bleachStrip false t)
    else if c == '>' then '&' :: 'g' :: 't' :: ';' :: bleachStrip false t
    else c :: bleachStrip false t

/-- Replacement for one maximal whitespace run, as in
`re.sub(r"\s{10,}", "  ", clean)`: runs of ten or more become two spaces. -/
def wsEmit (run : List Char) : List Char :=
  if run.length ≥ 10 then [' ', ' '] else run

/-- Scan collapsing every maximal whitespace run of length at least ten to
two spaces; `run` accumulates the current whitespace run. -/
def collapseWsGo (run : List Char) : List Char → List Char
  | [] => wsEmit run
  | c :: t =>
    if pyWs c then collapseWsGo (run ++ [c]) t
    else wsEmit run ++ c :: collapseWsGo [] t

/-- Python `str.strip()`: drop leading and trailing whitespace. -/
def pyStripChars (l : List Char) : List Char :=
  ((l.dropWhile pyWs).reverse.dropWhile pyWs).reverse

/-- Python `str.strip()` on `String`. -/
def pyStrip (s : String) : String := String.mk (pyStripChars s.data)

/-- MAX_STRING_LENGTH of cdr_cleaner.py. -/
def MAX_STRING_LENGTH : Nat := 50000

/-- MAX_ARRAY_LENGTH of cdr_cleaner.py. -/
def MAX_ARRAY_LENGTH : Nat := 10000

/-- MAX_NESTING_DEPTH of cdr_cleaner.py. -/
def MAX_NESTING_DEPTH : Nat := 20

/-- Truncation step of `sanitize_string`: over-long text is cut at
`maxLen` characters and an ellipsis marker is appended. -/
def truncEll (maxLen : Nat) (l : List Char) : List Char :=
  if l.length > maxLen then l.take maxLen ++ ['.', '.', '.'] else l

/-- `sanitize_string(value, max_length)` of cdr_cleaner.py, in source order:
strip all markup, remove control characters, collapse long whitespace runs,
truncate with ellipsis, strip surrounding whitespace. The Python function
returns the empty string for non-string input; every call site in the
repository passes a string, so the embedding takes a `String`. -/
def sanitize_string (value : String) (maxLength : Nat) : String :=
  String.mk (pyStripChars (truncEll maxLength
    (collapseWsGo [] ((bleachStrip false value.data).filter (fun c => !isCtrlStrip c)))))

/-- The fixed dangerous-token deny list of `sanitize_url`. -/
def dangerTokens : List String :=
  ["javascript:", "data:", "vbscript:", "file:", "<script", "onerror="]

/-- String core of `sanitize_url` of cdr_cleaner.py: strip surrounding
whitespace, then require an `http://`/`https://` lead, no dangerous token in
the lowercased text, and length at most 2048, in source order. -/
def sanitizeUrlStr (url : String) : Option String :=
  let t := pyStrip url
  if !(strStarts t "http://" || strStarts t "https://") then none
  else if dangerTokens.any (fun d => containsSub (lowerChars t.data) d.data) then none
  else if t.length > 2048 then none
  else some t

/-- `sanitize_url(url)` of cdr_cleaner.py: non-strings map to `None`. -/
def sanitize_url : JValue → Option String
  | .str s => sanitizeUrlStr s
  | _ => none

/-- Python `str()`/`repr()` of a float: `inf`, `-inf`, `nan` are exact; a
finite float prints as its truncation followed by `.0`, which is exact
precisely for integral-valued floats (disclosed model limit of
`PyFloat.finite`). -/
def pyFloatStr : PyFloat → String
  | .inf => "inf"
  | .negInf => "-inf"
  | .nan => "nan"
  | .finite t _ => toString t ++ ".0"

mutual

/-- Python `repr()` of a parsed JSON value, as far as the cleaner can
observe it: `None`/`True`/`False`, decimal integers, floats via
`pyFloatStr`, single-quoted strings (escaping inside reprs is not modelled;
no theorem below evaluates a repr of a string containing quotes), and
recursively bracketed lists and dicts. -/
def pyRepr : JValue → String
  | .null => "None"
  | .bool b => if b then "True" else "False"
  | .num n => toString n
  | .fnum f => pyFloatStr f
  | .str s => "\x27" ++ s ++ "\x27"
  | .arr xs => "[" ++ pyReprList xs ++ "]"
  | .obj kvs => "\x7b" ++ pyReprObj kvs ++ "\x7d"

/-- Comma-separated reprs of list elements. -/
def pyReprList : List JValue → String
  | [] => ""
  | [x] => pyRepr x
  | x :: y :: rest => pyRepr x ++ ", " ++ pyReprList (y :: rest)

/-- Comma-separated `key: value` reprs of dict entries. -/
def pyReprObj : List (String × JValue) → String
  | [] => ""
  | [(k, v)] => "\x27" ++ k ++ "\x27" ++ ": " ++ pyRepr v
  | (k, v) :: p :: rest =>
    "\x27" ++ k ++ "\x27" ++ ": " ++ pyRepr v ++ ", " ++ pyReprObj (p :: rest)

end

/-- Python `str()` of a parsed JSON value: the string itself for strings,
the repr for everything else. -/
def pyStr : JValue → String
  | .str s => s
  | .null => "None"
  | .bool b => if b then "True" else "False"
  | .num n => toString n
  | .fnum f => pyFloatStr f
  | .arr xs => pyRepr (.arr xs)
  | .obj kvs => pyRepr (.obj kvs)

/-- Value of a nonempty digit string. -/
def digitsVal (l : List Char) : Nat :=
  l.foldl (fun acc c => acc * 10 + (c.toNat - 48)) 0

/-- Python `int(s)` on a stripped string: an optional sign followed by one
or more decimal digits (digit-group underscores are not modelled; no input
in this development uses them). -/
def parseIntChars : List Char → Option Int
  | '+' :: rest =>
    if !rest.isEmpty && rest.all Char.isDigit then some (digitsVal rest) else none
  | '-' :: rest =>
    if !rest.isEmpty && rest.all Char.isDigit then some (-(digitsVal rest : Int)) else none
  | l =>
    if !l.isEmpty && l.all Char.isDigit then some (digitsVal l) else none

/-- Python `int(value)` on a parsed JSON value along the non-raising or
caught-exception executions, `none` when it raises `ValueError` or
`TypeError` (the two exceptions the counter loop of
`reconstruct_fetcher_output` catches): integers convert, booleans convert to
0/1, finite floats truncate toward zero, `nan` raises the caught
`ValueError`, numeric strings parse, and null/list/dict raise the caught
`TypeError`. The infinite floats raise `OverflowError`, which the counter
loop does NOT catch; that raising execution is modelled by `pyIntE` and the
`Except` embedding of the envelope, and this pure function (used by the pure
envelope, which describes only the non-raising executions) maps them to
`none`. -/
def pyIntOpt : JValue → Option Int
  | .num n => some n
  | .bool b => some (if b then 1 else 0)
  | .fnum (.finite t _) => some t
  | .str s => parseIntChars (pyStripChars s.data)
  | _ => none

/-- `reconstruct_value` of cdr_cleaner.py, written with fuel: a call at
depth `d` in the source corresponds to fuel `MAX_NESTING_DEPTH + 1 - d`, so
fuel 0 is exactly the `depth > MAX_NESTING_DEPTH` guard returning null
before any other logic. Arrays are truncated to MAX_ARRAY_LENGTH before the
recursion; dict keys are sanitized to at most 200 characters. The numeric
branch mirrors `abs(value) > 1e15`: false for `nan` (kept as is), true for
the infinities (zeroed), and recorded in the `big` flag of a finite
float. -/
def reconstructFuel : Nat → JValue → JValue
  | 0, _ => .null
  | Nat.succ f, v =>
    match v with
    | .null => .null
    | .bool b => .bool b
    | .num n => if n.natAbs > 10 ^ 15 then .num 0 else .num n
    | .fnum .inf => .num 0
    | .fnum .negInf => .num 0
    | .fnum .nan => .fnum .nan
    | .fnum (.finite t big) => if big then .num 0 else .fnum (.finite t big)
    | .str s => .str (sanitize_string s MAX_STRING_LENGTH)
    | .arr xs => .arr ((xs.take MAX_ARRAY_LENGTH).map (reconstructFuel f))
    | .obj kvs =>
      .obj (kvs.map (fun kv => (sanitize_string kv.1 200, reconstructFuel f kv.2)))

/-- `reconstruct_value(value, depth)` of cdr_cleaner.py. -/
def reconstruct_value (v : JValue) (depth : Nat) : JValue :=
  reconstructFuel (MAX_NESTING_DEPTH + 1 - depth) v

/-- One whitelist block of a schema-aware reconstructor: for each field name
in order, an optional cleaned value; fields whose cleaner yields `none` are
dropped. This mirrors the `for field in [...]` insertion loops. -/
def fieldBlock : List String → (String → Option JValue) → List (String × JValue)
  | [], _ => []
  | n :: t, g =>
    match g n with
    | some w => (n, w) :: fieldBlock t g
    | none => fieldBlock t g

/-- The body/content field names of `reconstruct_article`. -/
def bodyFieldNames : List String :=
  ["body", "body_text", "content", "summary", "description"]

/-- The short optional field names of `reconstruct_article`. -/
def optFieldNames : List String := ["language", "category", "author"]

/-- The URL field names of `reconstruct_article`, in loop order. -/
def urlFieldTriple : List String := ["source_url", "url", "link"]

/-- The regex `^\d{4}-\d{2}-\d{2}` of the article date check. -/
def dateShape : List Char → Bool
  | a :: b :: c :: d :: e :: f :: g :: h :: i :: j :: _ =>
    a.isDigit && b.isDigit && c.isDigit && d.isDigit && e == '-' &&
    f.isDigit && g.isDigit && h == '-' && i.isDigit && j.isDigit
  | _ => false

/-- Date handling of `reconstruct_article`: stringify, cut to 20
characters, keep only when it matches the date shape. -/
def articleDateOpt (kvs : List (String × JValue)) : Option JValue :=
  (jLookup kvs "date").bind (fun v =>
    let dv := (pyStr v).data.take 20
    if dateShape dv then some (.str (String.mk dv)) else none)

/-- Tag handling of `reconstruct_article`: present list values are cut to 20
entries, each stringified and sanitized to 50 characters. -/
def articleTagsOpt (kvs : List (String × JValue)) : Option JValue :=
  match jLookup kvs "relevance_tags" with
  | some (.arr ts) =>
    some (.arr ((ts.take 20).map (fun t => .str (sanitize_string (pyStr t) 50))))
  | _ => none

/-- Title/source block of `reconstruct_article`: stringified, sanitized to
500 characters, kept only when nonempty. -/
def cleanTitleSource (kvs : List (String × JValue)) : List (String × JValue) :=
  fieldBlock ["title", "source"] (fun f =>
    (jLookup kvs f).bind (fun v =>
      let s := sanitize_string (pyStr v) 500
      if s == "" then none else some (.str s)))

/-- URL block of `reconstruct_article`: each of the three URL field names,
kept when `sanitize_url` accepts its value. -/
def cleanUrls (kvs : List (String × JValue)) : List (String × JValue) :=
  fieldBlock urlFieldTriple (fun f =>
    (jLookup kvs f).bind (fun v => (sanitize_url v).map JValue.str))

/-- Body block of `reconstruct_article`: stringified and sanitized to
MAX_STRING_LENGTH, kept unconditionally when the field is present. -/
def cleanBodies (kvs : List (String × JValue)) : List (String × JValue) :=
  fieldBlock bodyFieldNames (fun f =>
    (jLookup kvs f).map (fun v => JValue.str (sanitize_string (pyStr v) MAX_STRING_LENGTH)))

/-- Optional-field block of `reconstruct_article`: stringified and sanitized
to 100 characters, kept unconditionally when present. -/
def cleanOpts (kvs : List (String × JValue)) : List (String × JValue) :=
  fieldBlock optFieldNames (fun f =>
    (jLookup kvs f).map (fun v => JValue.str (sanitize_string (pyStr v) 100)))

/-- The `clean` dict built by `reconstruct_article`, blocks in source
insertion order (the key sets of the blocks are pairwise disjoint, so the
concatenation is exactly the Python dict in insertion order). -/
def articleClean (kvs : List (String × JValue)) : List (String × JValue) :=
  cleanTitleSource kvs ++ cleanUrls kvs ++ cleanBodies kvs ++
  fieldBlock ["date"] (fun _ => articleDateOpt kvs) ++ cleanOpts kvs ++
  fieldBlock ["relevance_tags"] (fun _ => articleTagsOpt kvs)

/-- Python truthiness of `dict.get(key)`: absent keys and empty or zero
values are falsy. The truthiness of a finite float is modelled from its
truncation (exact for integral floats; the article gate only ever applies
this to string-valued slots, so the float branch is unreachable there). -/
def pyTruthy : Option JValue → Bool
  | none => false
  | some .null => false
  | some (.bool b) => b
  | some (.num n) => n != 0
  | some (.fnum .inf) => true
  | some (.fnum .negInf) => true
  | some (.fnum .nan) => true
  | some (.fnum (.finite t _)) => t != 0
  | some (.str s) => !s.isEmpty
  | some (.arr xs) => !xs.isEmpty
  | some (.obj kvs) => !kvs.isEmpty

/-- `reconstruct_article(article)` of cdr_cleaner.py: non-dicts map to
`None`; the rebuilt dict is returned unless it lacks both a truthy title
and a truthy source_url. -/
def reconstruct_article : JValue → Option JValue
  | .obj kvs =>
    let clean := articleClean kvs
    if pyTruthy (jLookup clean "title") || pyTruthy (jLookup clean "source_url") then
      some (.obj clean)
    else none
  | _ => none

/-- The metadata section rebuilt by `reconstruct_fetcher_output`; `now` is
the `datetime.now(UTC)` timestamp written into `cleaned_at`. -/
def metaPart (mkvs : List (String × JValue)) (now : String) :
    List (String × JValue) :=
  [("metadata", JValue.obj [
    ("source_name", .str (sanitize_string (pyStr (pyGet mkvs "source_name" (.str ""))) 50)),
    ("fetch_timestamp", .str (sanitize_string (pyStr (pyGet mkvs "fetch_timestamp" (.str ""))) 50)),
    ("date", .str (sanitize_string (pyStr (pyGet mkvs "date" (.str ""))) 20)),
    ("version", .str (sanitize_string (pyStr (pyGet mkvs "version" (.str "0.1.0"))) 20)),
    ("cleaned_at", .str now)])]

/-- The counter field names of `reconstruct_fetcher_output`, in loop
order. -/
def counterNames : List String := ["total_scraped", "total_fetched", "total_relevant"]

/-- Python `max(0, min(int(value), 100000))` with the `except` branch
mapping a failed conversion to 0. -/
def clampCounter : Option Int → Int
  | some n => max 0 (min n 100000)
  | none => 0

/-- Whether a value is a dict (`isinstance(value, dict)`). -/
def isObjJ : JValue → Bool
  | .obj _ => true
  | _ => false

/-- One cleaned feed_errors entry: the `feed` URL or "unknown", and the
sanitized `error` text. Only dict entries reach this function. -/
def feedEntryClean : JValue → JValue
  | .obj ekvs => .obj [
      ("feed", .str ((sanitize_url (pyGet ekvs "feed" (.str ""))).getD "unknown")),
      ("error", .str (sanitize_string (pyStr (pyGet ekvs "error" (.str ""))) 200))]
  | _ => .null

/-- Articles handling of `reconstruct_fetcher_output`: present list values
are cut to MAX_ARRAY_LENGTH and rebuilt by `reconstruct_article`, dropping
articles that rebuild to `None`. -/
def articlesOpt (dkvs : List (String × JValue)) : Option JValue :=
  match jLookup dkvs "articles" with
  | some (.arr xs) =>
    some (.arr ((xs.take MAX_ARRAY_LENGTH).filterMap reconstruct_article))
  | _ => none

/-- Feed-errors handling of `reconstruct_fetcher_output`: present list
values are cut to 50 entries, non-dict entries dropped, the rest cleaned. -/
def feedErrorsOpt (dkvs : List (String × JValue)) : Option JValue :=
  match jLookup dkvs "feed_errors" with
  | some (.arr es) => some (.arr (((es.take 50).filter isObjJ).map feedEntryClean))
  | _ => none

/-- The counters block of the explicit phase: each present counter field,
converted by `int()` and clamped, along the non-raising executions. -/
def dataCountersBlock (dkvs : List (String × JValue)) : List (String × JValue) :=
  fieldBlock counterNames (fun f =>
    (jLookup dkvs f).map (fun v => JValue.num (clampCounter (pyIntOpt v))))

/-- The explicit (schema-aware) phase of `reconstruct_fetcher_output` with
the counters block passed in, blocks in source insertion order. -/
def explicitDataWith (dkvs : List (String × JValue)) (cnt : List (String × JValue)) :
    List (String × JValue) :=
  fieldBlock ["date"] (fun _ =>
    (jLookup dkvs "date").map (fun v => JValue.str (sanitize_string (pyStr v) 20)))
  ++ fieldBlock ["source_url"] (fun _ =>
    (jLookup dkvs "source_url").bind (fun v => (sanitize_url v).map JValue.str))
  ++ cnt
  ++ fieldBlock ["articles"] (fun _ => articlesOpt dkvs)
  ++ fieldBlock ["error"] (fun _ =>
    (jLookup dkvs "error").map (fun v => JValue.str (sanitize_string (pyStr v) 500)))
  ++ fieldBlock ["feed_errors"] (fun _ => feedErrorsOpt dkvs)

/-- The `clean_data` dict after the explicit (schema-aware) phase of
`reconstruct_fetcher_output`, blocks in source insertion order (the
non-raising executions; the counter loop's uncaught `OverflowError` is
modelled by the `Except` embedding below). -/
def explicitData (dkvs : List (String × JValue)) : List (String × JValue) :=
  explicitDataWith dkvs (dataCountersBlock dkvs)

/-- The generic loop of `reconstruct_fetcher_output`: every input item whose
key is not yet a key of the accumulated `clean_data` is appended with its
generically reconstructed value. -/
def genericAdd (acc : List (String × JValue)) :
    List (String × JValue) → List (String × JValue)
  | [] => acc
  | (k, v) :: rest =>
    if jContains acc k then genericAdd acc rest
    else genericAdd (acc ++ [(k, reconstruct_value v 0)]) rest

/-- The complete `clean_data` section: explicit phase then generic loop over
the raw data items. -/
def dataClean (dkvs : List (String × JValue)) : List (String × JValue) :=
  genericAdd (explicitData dkvs) dkvs

/-- `reconstruct_fetcher_output(data)` of cdr_cleaner.py on a dict input,
with the `cleaned_at` timestamp passed in as `now`. The metadata section
appears only when the input has a dict-valued `metadata` key, and likewise
for `data`. -/
def reconstruct_fetcher_output (kvs : List (String × JValue)) (now : String) :
    List (String × JValue) :=
  (match jLookup kvs "metadata" with
   | some (.obj mkvs) => metaPart mkvs now
   | _ => []) ++
  (match jLookup kvs "data" with
   | some (.obj dkvs) => [("data", JValue.obj (dataClean dkvs))]
   | _ => [])

/-- Python runtime errors that `reconstruct_fetcher_output` itself can
raise: `TypeError`/`KeyError` from membership and subscripts on a non-dict
top-level value, and the `OverflowError` of `int()` on an infinite float,
which the counter loop's `except (ValueError, TypeError)` does not catch. -/
inductive PyErr where
  | typeError
  | keyError
  | overflowError
deriving DecidableEq

/-- Python `int(value)` with its raising behavior explicit: `.ok (some n)`
when the conversion succeeds, `.ok none` when it raises one of the
exceptions the counter loop catches (`ValueError` from `nan` or a
non-numeric string, `TypeError` from null/list/dict), and
`.error .overflowError` for the infinite floats, whose `OverflowError` the
counter loop does not catch. -/
def pyIntE : JValue → Except PyErr (Option Int)
  | .fnum .inf => .error .overflowError
  | .fnum .negInf => .error .overflowError
  | v => .ok (pyIntOpt v)

/-- One counter field of the explicit phase with the `int()` exception
behavior explicit: absent fields contribute nothing, a present field either
contributes its clamped conversion or propagates `OverflowError`. -/
def counterEntryE (dkvs : List (String × JValue)) (f : String) :
    Except PyErr (List (String × JValue)) :=
  match jLookup dkvs f with
  | none => .ok []
  | some v => (pyIntE v).map (fun o => [(f, JValue.num (clampCounter o))])

/-- The counter loop of the explicit phase in the error monad, fields in
source order, stopping at the first uncaught `OverflowError`. -/
def countersE (dkvs : List (String × JValue)) :
    Except PyErr (List (String × JValue)) := do
  let a ← counterEntryE dkvs "total_scraped"
  let b ← counterEntryE dkvs "total_fetched"
  let c ← counterEntryE dkvs "total_relevant"
  pure (a ++ b ++ c)

/-- The `clean_data` section in the error monad: the explicit phase with the
fallible counter loop, then the generic loop (which never raises). -/
def dataCleanE (dkvs : List (String × JValue)) :
    Except PyErr (List (String × JValue)) := do
  let cnt ← countersE dkvs
  pure (genericAdd (explicitDataWith dkvs cnt) dkvs)

/-- Python `key in value` for a string key: key membership for dicts,
element equality for lists, substring test for strings, `TypeError` for
null, booleans and numbers. -/
def pyContains (v : JValue) (key : String) : Except PyErr Bool :=
  match v with
  | .obj kvs => .ok (jContains kvs key)
  | .arr xs => .ok (xs.any (fun x => match x with | .str t => t == key | _ => false))
  | .str s => .ok (containsSub s.data key.data)
  | _ => .error .typeError

/-- Python `value[key]` for a string key: dict lookup (`KeyError` when
absent), `TypeError` for every other runtime type. -/
def pySubscript (v : JValue) (key : String) : Except PyErr JValue :=
  match v with
  | .obj kvs =>
    match jLookup kvs key with
    | some w => .ok w
    | none => .error .keyError
  | _ => .error .typeError

/-- Whether a value in counter position would make `int()` raise the
uncaught `OverflowError` (the infinite floats do; `nan` raises the caught
`ValueError` instead). -/
def counterRaises : JValue → Bool
  | .fnum .inf => true
  | .fnum .negInf => true
  | _ => false

/-- Whether no counter field of a dict-valued `data` section holds an
infinite float, so the counter loop of the reconstruction cannot raise. -/
def counterOverflowFree (kvs : List (String × JValue)) : Bool :=
  match jLookup kvs "data" with
  | some (.obj dkvs) =>
    counterNames.all (fun f =>
      match jLookup dkvs f with
      | some v => !counterRaises v
      | none => true)
  | _ => true

/-- The metadata block of `reconstruct_fetcher_output` on an arbitrary
parsed JSON value, with Python's membership test and subscript made
explicit in an error monad. -/
def metaPartE (d : JValue) (now : String) : Except PyErr (List (String × JValue)) := do
  let hasM ← pyContains d "metadata"
  if hasM then do
    let m ← pySubscript d "metadata"
    match m with
    | .obj mkvs => pure (metaPart mkvs now)
    | _ => pure []
  else pure []

/-- The data block of `reconstruct_fetcher_output` on an arbitrary parsed
JSON value, with Python's membership test, subscript and the counter loop's
uncaught `OverflowError` made explicit. -/
def dataPartE (d : JValue) : Except PyErr (List (String × JValue)) := do
  let hasD ← pyContains d "data"
  if hasD then do
    let dv ← pySubscript d "data"
    match dv with
    | .obj dkvs => do
      let dc ← dataCleanE dkvs
      pure [("data", JValue.obj dc)]
    | _ => pure []
  else pure []

/-- `reconstruct_fetcher_output(data)` on an arbitrary parsed JSON value,
with Python's membership tests and subscripts made explicit in an error
monad: this is the behavior of the source when `json.load` hands it a
non-dict document; the metadata block runs first, then the data block. -/
def reconstruct_fetcher_outputE (d : JValue) (now : String) :
    Except PyErr (List (String × JValue)) := do
  let mPart ← metaPartE d now
  let dPart ← dataPartE d
  pure (mPart ++ dPart)

/-
Second stage: the independently-coded Validator of
src/scripts/validate_output.py. Validation errors are modelled as a small
inductive carrying the offending field path, mirroring the distinct
ValidationError raise sites.
-/

/-- The validation failures of validate_output.py, one constructor per
raise site relevant to in-memory validation, each carrying the field path
(the structural check carries its message instead). -/
inductive VError where
  | structuralErr (msg : String)
  | tooLong (path : String)
  | suspiciousPattern (path : String)
  | urlTooLong (path : String)
  | pathTraversal (path : String)
  | dangerousProtocol (path : String)
deriving DecidableEq

/-- The metadata field names whose presence `check_json_structure`
requires at least one of. -/
def expectedMetaFields : List String := ["source_name", "fetch_timestamp", "date"]

/-- `check_json_structure(data)` of validate_output.py: the root must be a
dict; a present `metadata` value must be a dict sharing at least one key
with the expected set. -/
def check_json_structure (d : JValue) : Except VError Unit :=
  match d with
  | .obj kvs =>
    match jLookup kvs "metadata" with
    | some (.obj mkvs) =>
      if expectedMetaFields.any (fun k => jContains mkvs k) then .ok ()
      else .error (.structuralErr "metadata missing expected fields")
    | some _ => .error (.structuralErr "metadata must be an object")
    | none => .ok ()
  | _ => .error (.structuralErr "Root must be a JSON object")

/-- The event-handler names of the `on(...)\s*=` suspicious pattern. -/
def handlerWords : List String := ["click", "error", "load", "mouseover", "focus", "blur"]

/-- The DOM method names of the `document\.(...)` suspicious pattern,
lowercased since the scan is case-insensitive. -/
def documentWords : List String :=
  ["write", "cookie", "location", "body", "head", "getelementbyid", "queryselector"]

/-- The window method names of the `window\.(...)` suspicious pattern. -/
def windowWords : List String := ["location", "open", "eval", "execscript"]

/-- Whether a whitespace run followed by `target` starts here (the
`\s*=` and `\s*\(` tails of the suspicious patterns). -/
def wsThen (target : Char) : List Char → Bool
  | [] => false
  | c :: t => if c == target then true else if pyWs c then wsThen target t else false

/-- Whether a `<name[^>]*>` tag match starts at the head of `l`: the regex
matches exactly when `<name` starts here and a closing `>` occurs at or
after the position following the name. -/
def tagHere (name : List Char) (l : List Char) : Bool :=
  isPrefList ('<' :: name) l && hasGt (l.drop (name.length + 1))

/-- Whether an `on(click|...)\s*=` handler match starts at the head. -/
def handlerHere (l : List Char) : Bool :=
  handlerWords.any (fun w =>
    isPrefList ('o' :: 'n' :: w.data) l && wsThen '=' (l.drop (2 + w.length)))

/-- Whether an `eval\s*\(` match starts at the head. -/
def evalCallHere (l : List Char) : Bool :=
  isPrefList ['e', 'v', 'a', 'l'] l && wsThen '(' (l.drop 4)

/-- Lowercase hexadecimal digit (the scan runs on lowercased text). -/
def isHexLower (c : Char) : Bool := c.isDigit || ('a' ≤ c && c ≤ 'f')

/-- Whether a `\\x..\\x..` stacked hex-escape match starts at the head. -/
def hexEscHere : List Char → Bool
  | '\\' :: 'x' :: a :: b :: '\\' :: 'x' :: c :: d :: _ =>
    isHexLower a && isHexLower b && isHexLower c && isHexLower d
  | _ => false

/-- Whether any of the SUSPICIOUS_PATTERNS alternatives matches at the head
of the (already lowercased) text. -/
def suspiciousHere (l : List Char) : Bool :=
  isPrefList "javascript:".data l || isPrefList "data:text/html".data l ||
  isPrefList "../../".data l || isPrefList "file://".data l ||
  tagHere "script".data l || tagHere "iframe".data l ||
  tagHere "object".data l || tagHere "embed".data l ||
  handlerHere l || evalCallHere l || hexEscHere l ||
  documentWords.any (fun w => isPrefList ("document.".data ++ w.data) l) ||
  windowWords.any (fun w => isPrefList ("window.".data ++ w.data) l)

/-- Whether any suffix of the text has a suspicious match at its head. -/
def anySuffixHit : List Char → Bool
  | [] => false
  | c :: t => suspiciousHere (c :: t) || anySuffixHit t

/-- `SUSPICIOUS_REGEX.search(value)` succeeding: some alternative of
SUSPICIOUS_PATTERNS matches somewhere, case-insensitively (modelled by
lowercasing the text; the patterns are spelled lowercase). -/
def suspicious (s : String) : Bool := anySuffixHit (lowerChars s.data)

/-- `check_string_content(value, path)` of validate_output.py: length cap
of 100000 first, then the suspicious-pattern scan. -/
def check_string_content (s : String) (path : String) : Except VError Unit :=
  if s.length > 100000 then .error (.tooLong path)
  else if suspicious s then .error (.suspiciousPattern path)
  else .ok ()

/-- The URL-bearing field names recognized by `is_url_field`. -/
def urlFieldNames : List String :=
  ["url", "source_url", "link", "href", "image_url", "thumbnail"]

/-- Python `"...".split(".")` on a character list: the segments between
dots; the empty input yields one empty segment, as in Python. -/
def splitDot : List Char → List String
  | [] => [""]
  | c :: t =>
    if c == '.' then "" :: splitDot t
    else
      match splitDot t with
      | h :: r => String.mk (c :: h.data) :: r
      | [] => [String.mk [c]]

/-- The segment list of `is_url_field`:
`path.lower().replace("[", ".").replace("]", "").split(".")`. -/
def pathParts (p : String) : List String :=
  splitDot (((lowerChars p.data).map (fun c => if c == '[' then '.' else c)).filter
    (fun c => c != ']'))

/-- `is_url_field(path)` of validate_output.py: some segment of the
normalized path is a recognized URL field name. -/
def is_url_field (p : String) : Bool :=
  (pathParts p).any (fun part => urlFieldNames.any (fun u => part == u))

/-- The dangerous protocol names of `check_url`. -/
def valDangerProtocols : List String := ["javascript", "data", "file", "vbscript"]

/-- Whether a string starts with `http://` or `https://`. -/
def startsHttp (s : String) : Bool := strStarts s "http://" || strStarts s "https://"

/-- The characters before the first `://` (Python `url.split("://")[0]`). -/
def protoBefore : List Char → List Char
  | [] => []
  | c :: t => if isPrefList "://".data (c :: t) then [] else c :: protoBefore t

/-- `check_url(url, path)` of validate_output.py: length cap of 2048, the
path-traversal test, then the protocol policy for non-http(s) schemes. -/
def check_url (url : String) (path : String) : Except VError Unit :=
  if url.length > 2048 then .error (.urlTooLong path)
  else if containsSub url.data "..".data || strStarts url "/etc/" || strStarts url "/proc/" then
    .error (.pathTraversal path)
  else if startsHttp url then .ok ()
  else if containsSub url.data "://".data then
    (if valDangerProtocols.any (fun pr => String.mk (lowerChars (protoBefore url.data)) == pr) then
      .error (.dangerousProtocol path)
    else .ok ())
  else .ok ()

/-- The dangerous protocol tokens of the `elif "://" in value` branch of
`validate_value`. -/
def valDangerTokens : List String :=
  ["javascript:", "data:text/html", "file://", "vbscript:"]

/-- The `elif "://" in value` branch of `validate_value`: strings that are
not URL-checked but contain `://` are scanned for the dangerous protocol
tokens in the lowercased text. -/
def protoScan (s : String) (path : String) : Except VError Unit :=
  if containsSub s.data "://".data then
    (if valDangerTokens.any (fun pr => containsSub (lowerChars s.data) pr.data) then
      .error (.dangerousProtocol path)
    else .ok ())
  else .ok ()

/-- Path extension for a dict key: `f"{path}.{key}" if path else key`. -/
def joinField (p k : String) : String := if p == "" then k else p ++ "." ++ k

/-- First-of-two for option values, used to phrase lookups in concatenated
dict blocks. -/
def optOr (o p : Option JValue) : Option JValue :=
  match o with
  | some v => some v
  | none => p

/-- The data-section keys handled by the explicit phase of
`reconstruct_fetcher_output`. -/
def handledKeyNames : List String :=
  ["date", "source_url", "total_scraped", "total_fetched", "total_relevant",
   "articles", "error", "feed_errors"]

mutual

/-- `validate_value(value, path)` of validate_output.py: strings get the
content check, then either the URL check (URL-named path segment and
http(s) lead) or the dangerous-protocol scan; dicts and lists recurse with
the dotted/bracketed path; numbers, booleans and null pass. The first
failure anywhere (depth-first, key order) propagates. -/
def validate_value : JValue → String → Except VError Unit
  | .str s, p => do
    check_string_content s p
    if is_url_field p && startsHttp s then check_url s p else protoScan s p
  | .obj kvs, p => validateFields kvs p
  | .arr xs, p => validateItems xs p 0
  | _, _ => .ok ()

/-- Dict traversal of `validate_value`. -/
def validateFields : List (String × JValue) → String → Except VError Unit
  | [], _ => .ok ()
  | (k, v) :: rest, p => do
    validate_value v (joinField p k)
    validateFields rest p

/-- List traversal of `validate_value`, carrying the element index. -/
def validateItems : List JValue → String → Nat → Except VError Unit
  | [], _, _ => .ok ()
  | x :: rest, p, i => do
    validate_value x (p ++ "[" ++ toString i ++ "]")
    validateItems rest p (i + 1)

end

/-
Helper lemmas shared by the claim theorems below.
-/

theorem optOr_some (v : JValue) (p : Option JValue) : optOr (some v) p = some v := rfl

theorem optOr_none (p : Option JValue) : optOr none p = p := rfl

theorem jLookup_append (a b : List (String × JValue)) (k : String) :
    jLookup (a ++ b) k = optOr (jLookup a k) (jLookup b k) := by
  induction a with
  | nil => simp [jLookup, optOr]
  | cons h t ih =>
    obtain ⟨k1, v1⟩ := h
    by_cases hk : (k1 == k) = true
    · simp [jLookup, hk, optOr]
    · simp only [List.cons_append, jLookup, hk]
      simp only [Bool.false_eq_true, if_false] at *
      exact ih

theorem fieldBlock_lookup_of_not_mem (names : List String) (g : String → Option JValue)
    (k : String) (h : k ∉ names) : jLookup (fieldBlock names g) k = none := by
  induction names with
  | nil => rfl
  | cons n t ih =>
    have h1 : (n == k) = false := by
      simp only [beq_eq_false_iff_ne, ne_eq]
      rintro rfl
      exact h (List.mem_cons_self _ _)
    have h2 : k ∉ t := fun m => h (List.mem_cons_of_mem _ m)
    cases hg : g n with
    | none => simpa [fieldBlock, hg] using ih h2
    | some w =>
      simp only [fieldBlock, hg, jLookup, h1, Bool.false_eq_true, if_false]
      exact ih h2

theorem fieldBlock_lookup_of_mem (names : List String) (g : String → Option JValue)
    (k : String) (hn : names.Nodup) (h : k ∈ names) :
    jLookup (fieldBlock names g) k = g k := by
  induction names with
  | nil => cases h
  | cons n t ih =>
    have hn1 : n ∉ t := (List.nodup_cons.mp hn).1
    have hn2 : t.Nodup := (List.nodup_cons.mp hn).2
    rcases List.mem_cons.mp h with rfl | hkt
    · cases hg : g k with
      | none =>
        have : jLookup (fieldBlock t g) k = none := fieldBlock_lookup_of_not_mem t g k hn1
        simp [fieldBlock, hg, this]
      | some w => simp [fieldBlock, hg, jLookup]
    · have h1 : (n == k) = false := by
        simp only [beq_eq_false_iff_ne, ne_eq]
        rintro rfl
        exact hn1 hkt
      cases hg : g n with
      | none => simpa [fieldBlock, hg] using ih hn2 hkt
      | some w =>
        simp only [fieldBlock, hg, jLookup, h1, Bool.false_eq_true, if_false]
        exact ih hn2 hkt

theorem optOr_assoc (a b c : Option JValue) :
    optOr (optOr a b) c = optOr a (optOr b c) := by
  cases a <;> rfl

theorem jContains_false_lookup (acc : List (String × JValue)) (k : String)
    (h : ¬ jContains acc k = true) : jLookup acc k = none := by
  unfold jContains at h
  cases hl : jLookup acc k with
  | none => rfl
  | some w => rw [hl] at h; simp at h

theorem jContains_true_lookup (acc : List (String × JValue)) (k : String)
    (h : jContains acc k = true) : ∃ w, jLookup acc k = some w := by
  unfold jContains at h
  cases hl : jLookup acc k with
  | none => rw [hl] at h; simp at h
  | some w => exact ⟨w, rfl⟩

theorem genericAdd_lookup (items acc : List (String × JValue)) (k : String) :
    jLookup (genericAdd acc items) k =
      optOr (jLookup acc k) ((jLookup items k).map (fun v => reconstruct_value v 0)) := by
  induction items generalizing acc with
  | nil =>
    cases hl : jLookup acc k <;> simp [genericAdd, jLookup, optOr, hl]
  | cons h t ih =>
    obtain ⟨k1, v1⟩ := h
    by_cases hk : (k1 == k) = true
    · obtain rfl : k1 = k := by simpa [beq_iff_eq] using hk
      by_cases hc : jContains acc k1 = true
      · obtain ⟨w, hw⟩ := jContains_true_lookup acc k1 hc
        rw [show genericAdd acc ((k1, v1) :: t) = genericAdd acc t from by
          simp [genericAdd, hc]]
        rw [ih, hw]
        simp [optOr, jLookup]
      · have hnone : jLookup acc k1 = none := jContains_false_lookup acc k1 hc
        rw [show genericAdd acc ((k1, v1) :: t) =
            genericAdd (acc ++ [(k1, reconstruct_value v1 0)]) t from by
          simp [genericAdd, hc]]
        rw [ih, jLookup_append, hnone]
        simp [optOr, jLookup]
    · by_cases hc : jContains acc k1 = true
      · rw [show genericAdd acc ((k1, v1) :: t) = genericAdd acc t from by
          simp [genericAdd, hc]]
        rw [ih]
        simp [jLookup, hk]
      · rw [show genericAdd acc ((k1, v1) :: t) =
            genericAdd (acc ++ [(k1, reconstruct_value v1 0)]) t from by
          simp [genericAdd, hc]]
        rw [ih, jLookup_append]
        have : jLookup [(k1, reconstruct_value v1 0)] k = none := by
          simp [jLookup, hk]
        rw [this]
        cases jLookup acc k <;> simp [optOr, jLookup, hk]

theorem sanitizeUrlStr_some (s u : String) (h : sanitizeUrlStr s = some u) :
    u = pyStrip s ∧ (strStarts u "http://" || strStarts u "https://") = true := by
  by_cases h1 : (strStarts (pyStrip s) "http://" || strStarts (pyStrip s) "https://") = true
  · by_cases h2 :
        (dangerTokens.any fun d => containsSub (lowerChars (pyStrip s).data) d.data) = true
    · exfalso; simp [sanitizeUrlStr, h1, h2] at h
    · simp only [Bool.not_eq_true] at h2
      by_cases h3 : (pyStrip s).length > 2048
      · exfalso; simp [sanitizeUrlStr, h1, h2, h3] at h
      · have heq : some (pyStrip s) = some u := by
          simpa [sanitizeUrlStr, h1, h2, h3] using h
        obtain rfl := Option.some.inj heq
        exact ⟨rfl, h1⟩
  · exfalso
    simp only [Bool.not_eq_true] at h1
    simp [sanitizeUrlStr, h1] at h

theorem strStarts_http_ne_empty (u : String)
    (h : (strStarts u "http://" || strStarts u "https://") = true) :
    u.isEmpty = false := by
  have hne : u ≠ "" := by
    rintro rfl
    simp [strStarts, isPrefList] at h
  have h2 : ¬ (u.isEmpty = true) := fun hb => hne ((String.isEmpty_iff u).mp hb)
  exact Bool.eq_false_iff.mpr h2

theorem sanitize_url_some_ne_empty (v : JValue) (u : String)
    (h : sanitize_url v = some u) : u.isEmpty = false := by
  cases v with
  | str s => exact strStarts_http_ne_empty u (sanitizeUrlStr_some s u h).2
  | null => simp [sanitize_url] at h
  | bool b => simp [sanitize_url] at h
  | num n => simp [sanitize_url] at h
  | fnum f => simp [sanitize_url] at h
  | arr xs => simp [sanitize_url] at h
  | obj kvs => simp [sanitize_url] at h

theorem articleClean_lookup (kvs : List (String × JValue)) (k : String) :
    jLookup (articleClean kvs) k =
      optOr (jLookup (cleanTitleSource kvs) k)
        (optOr (jLookup (cleanUrls kvs) k)
          (optOr (jLookup (cleanBodies kvs) k)
            (optOr (jLookup (fieldBlock ["date"] (fun _ => articleDateOpt kvs)) k)
              (optOr (jLookup (cleanOpts kvs) k)
                (jLookup (fieldBlock ["relevance_tags"] (fun _ => articleTagsOpt kvs)) k))))) := by
  simp [articleClean, jLookup_append, optOr_assoc]

theorem articleClean_title (kvs : List (String × JValue)) :
    jLookup (articleClean kvs) "title" =
      (jLookup kvs "title").bind (fun v =>
        let s := sanitize_string (pyStr v) 500
        if s == "" then none else some (.str s)) := by
  rw [articleClean_lookup,
    show jLookup (cleanTitleSource kvs) "title" =
        ((jLookup kvs "title").bind (fun v =>
          let s := sanitize_string (pyStr v) 500
          if s == "" then none else some (.str s))) from
      fieldBlock_lookup_of_mem _ _ _ (by decide) (by decide)]
  cases hb : (jLookup kvs "title").bind (fun v =>
      let s := sanitize_string (pyStr v) 500
      if s == "" then none else some (JValue.str s)) with
  | some w => rfl
  | none =>
    rw [optOr_none,
      show jLookup (cleanUrls kvs) "title" = none from
        fieldBlock_lookup_of_not_mem _ _ _ (by decide),
      show jLookup (cleanBodies kvs) "title" = none from
        fieldBlock_lookup_of_not_mem _ _ _ (by decide),
      show jLookup (fieldBlock ["date"] (fun _ => articleDateOpt kvs)) "title" = none from
        fieldBlock_lookup_of_not_mem _ _ _ (by decide),
      show jLookup (cleanOpts kvs) "title" = none from
        fieldBlock_lookup_of_not_mem _ _ _ (by decide),
      show jLookup (fieldBlock ["relevance_tags"] (fun _ => articleTagsOpt kvs)) "title" =
          none from
        fieldBlock_lookup_of_not_mem _ _ _ (by decide)]
    rfl

theorem articleClean_source_url (kvs : List (String × JValue)) :
    jLookup (articleClean kvs) "source_url" =
      (jLookup kvs "source_url").bind (fun v => (sanitize_url v).map JValue.str) := by
  rw [articleClean_lookup,
    show jLookup (cleanTitleSource kvs) "source_url" = none from
      fieldBlock_lookup_of_not_mem _ _ _ (by decide),
    show jLookup (cleanUrls kvs) "source_url" =
        ((jLookup kvs "source_url").bind (fun v => (sanitize_url v).map JValue.str)) from
      fieldBlock_lookup_of_mem _ _ _ (by decide) (by decide)]
  cases hb : (jLookup kvs "source_url").bind (fun v => (sanitize_url v).map JValue.str) with
  | some w => rfl
  | none =>
    rw [optOr_none, optOr_none,
      show jLookup (cleanBodies kvs) "source_url" = none from
        fieldBlock_lookup_of_not_mem _ _ _ (by decide),
      show jLookup (fieldBlock ["date"] (fun _ => articleDateOpt kvs)) "source_url" = none from
        fieldBlock_lookup_of_not_mem _ _ _ (by decide),
      show jLookup (cleanOpts kvs) "source_url" = none from
        fieldBlock_lookup_of_not_mem _ _ _ (by decide),
      show jLookup (fieldBlock ["relevance_tags"] (fun _ => articleTagsOpt kvs)) "source_url" =
          none from
        fieldBlock_lookup_of_not_mem _ _ _ (by decide)]
    rfl

theorem articleClean_url (kvs : List (String × JValue)) :
    jLookup (articleClean kvs) "url" =
      (jLookup kvs "url").bind (fun v => (sanitize_url v).map JValue.str) := by
  rw [articleClean_lookup,
    show jLookup (cleanTitleSource kvs) "url" = none from
      fieldBlock_lookup_of_not_mem _ _ _ (by decide),
    show jLookup (cleanUrls kvs) "url" =
        ((jLookup kvs "url").bind (fun v => (sanitize_url v).map JValue.str)) from
      fieldBlock_lookup_of_mem _ _ _ (by decide) (by decide)]
  cases hb : (jLookup kvs "url").bind (fun v => (sanitize_url v).map JValue.str) with
  | some w => rfl
  | none =>
    rw [optOr_none, optOr_none,
      show jLookup (cleanBodies kvs) "url" = none from
        fieldBlock_lookup_of_not_mem _ _ _ (by decide),
      show jLookup (fieldBlock ["date"] (fun _ => articleDateOpt kvs)) "url" = none from
        fieldBlock_lookup_of_not_mem _ _ _ (by decide),
      show jLookup (cleanOpts kvs) "url" = none from
        fieldBlock_lookup_of_not_mem _ _ _ (by decide),
      show jLookup (fieldBlock ["relevance_tags"] (fun _ => articleTagsOpt kvs)) "url" =
          none from
        fieldBlock_lookup_of_not_mem _ _ _ (by decide)]
    rfl

theorem articleClean_body_mem (kvs : List (String × JValue)) (f : String)
    (hf : f ∈ bodyFieldNames) :
    jLookup (articleClean kvs) f =
      (jLookup kvs f).map (fun v => JValue.str (sanitize_string (pyStr v) MAX_STRING_LENGTH)) := by
  have h1 : f ∉ (["title", "source"] : List String) :=
    (by decide : ∀ x ∈ bodyFieldNames, x ∉ (["title", "source"] : List String)) f hf
  have h2 : f ∉ urlFieldTriple :=
    (by decide : ∀ x ∈ bodyFieldNames, x ∉ urlFieldTriple) f hf
  have h4 : f ∉ (["date"] : List String) :=
    (by decide : ∀ x ∈ bodyFieldNames, x ∉ (["date"] : List String)) f hf
  have h5 : f ∉ optFieldNames :=
    (by decide : ∀ x ∈ bodyFieldNames, x ∉ optFieldNames) f hf
  have h6 : f ∉ (["relevance_tags"] : List String) :=
    (by decide : ∀ x ∈ bodyFieldNames, x ∉ (["relevance_tags"] : List String)) f hf
  rw [articleClean_lookup,
    show jLookup (cleanTitleSource kvs) f = none from
      fieldBlock_lookup_of_not_mem _ _ _ h1,
    show jLookup (cleanUrls kvs) f = none from
      fieldBlock_lookup_of_not_mem _ _ _ h2,
    show jLookup (cleanBodies kvs) f =
        ((jLookup kvs f).map (fun v => JValue.str (sanitize_string (pyStr v) MAX_STRING_LENGTH)))
      from fieldBlock_lookup_of_mem _ _ _ (by decide) hf,
    show jLookup (fieldBlock ["date"] (fun _ => articleDateOpt kvs)) f = none from
      fieldBlock_lookup_of_not_mem _ _ _ h4,
    show jLookup (cleanOpts kvs) f = none from
      fieldBlock_lookup_of_not_mem _ _ _ h5,
    show jLookup (fieldBlock ["relevance_tags"] (fun _ => articleTagsOpt kvs)) f = none from
      fieldBlock_lookup_of_not_mem _ _ _ h6]
  cases jLookup kvs f <;> simp [optOr]

theorem articleClean_opt_mem (kvs : List (String × JValue)) (f : String)
    (hf : f ∈ optFieldNames) :
    jLookup (articleClean kvs) f =
      (jLookup kvs f).map (fun v => JValue.str (sanitize_string (pyStr v) 100)) := by
  have h1 : f ∉ (["title", "source"] : List String) :=
    (by decide : ∀ x ∈ optFieldNames, x ∉ (["title", "source"] : List String)) f hf
  have h2 : f ∉ urlFieldTriple :=
    (by decide : ∀ x ∈ optFieldNames, x ∉ urlFieldTriple) f hf
  have h3 : f ∉ bodyFieldNames :=
    (by decide : ∀ x ∈ optFieldNames, x ∉ bodyFieldNames) f hf
  have h4 : f ∉ (["date"] : List String) :=
    (by decide : ∀ x ∈ optFieldNames, x ∉ (["date"] : List String)) f hf
  have h6 : f ∉ (["relevance_tags"] : List String) :=
    (by decide : ∀ x ∈ optFieldNames, x ∉ (["relevance_tags"] : List String)) f hf
  rw [articleClean_lookup,
    show jLookup (cleanTitleSource kvs) f = none from
      fieldBlock_lookup_of_not_mem _ _ _ h1,
    show jLookup (cleanUrls kvs) f = none from
      fieldBlock_lookup_of_not_mem _ _ _ h2,
    show jLookup (cleanBodies kvs) f = none from
      fieldBlock_lookup_of_not_mem _ _ _ h3,
    show jLookup (fieldBlock ["date"] (fun _ => articleDateOpt kvs)) f = none from
      fieldBlock_lookup_of_not_mem _ _ _ h4,
    show jLookup (cleanOpts kvs) f =
        ((jLookup kvs f).map (fun v => JValue.str (sanitize_string (pyStr v) 100)))
      from fieldBlock_lookup_of_mem _ _ _ (by decide) hf,
    show jLookup (fieldBlock ["relevance_tags"] (fun _ => articleTagsOpt kvs)) f = none from
      fieldBlock_lookup_of_not_mem _ _ _ h6]
  cases jLookup kvs f <;> simp [optOr]

theorem articleClean_tags (kvs : List (String × JValue)) :
    jLookup (articleClean kvs) "relevance_tags" = articleTagsOpt kvs := by
  rw [articleClean_lookup,
    show jLookup (cleanTitleSource kvs) "relevance_tags" = none from
      fieldBlock_lookup_of_not_mem _ _ _ (by decide),
    show jLookup (cleanUrls kvs) "relevance_tags" = none from
      fieldBlock_lookup_of_not_mem _ _ _ (by decide),
    show jLookup (cleanBodies kvs) "relevance_tags" = none from
      fieldBlock_lookup_of_not_mem _ _ _ (by decide),
    show jLookup (fieldBlock ["date"] (fun _ => articleDateOpt kvs)) "relevance_tags" = none from
      fieldBlock_lookup_of_not_mem _ _ _ (by decide),
    show jLookup (cleanOpts kvs) "relevance_tags" = none from
      fieldBlock_lookup_of_not_mem _ _ _ (by decide),
    show jLookup (fieldBlock ["relevance_tags"] (fun _ => articleTagsOpt kvs)) "relevance_tags" =
        articleTagsOpt kvs from
      fieldBlock_lookup_of_mem _ _ _ (by decide) (by decide)]
  cases articleTagsOpt kvs <;> simp [optOr]

theorem reconstruct_output_data_lookup (kvs dkvs : List (String × JValue)) (now : String)
    (hd : jLookup kvs "data" = some (.obj dkvs)) :
    jLookup (reconstruct_fetcher_output kvs now) "data" = some (.obj (dataClean dkvs)) := by
  unfold reconstruct_fetcher_output
  rw [hd]
  cases hm : jLookup kvs "metadata" with
  | none => simp [jLookup]
  | some m => cases m <;> simp [jLookup, metaPart]

theorem fieldBlock_lookup_none (names : List String) (k : String) (h : k ∉ names)
    (g : String → Option JValue) : jLookup (fieldBlock names g) k = none :=
  fieldBlock_lookup_of_not_mem names g k h

/-- Claim C5 counterexample: `sanitize_url` strips surrounding whitespace
before its prefix check, so an input that does not start with `http://` or
`https://` (it starts with a space) is still accepted, contradicting the
claim that null is returned unless the input itself starts with the
prefix. -/
theorem C5_counterexample :
    sanitize_url (.str " https://e.example/") = some "https://e.example/" ∧
    strStarts " https://e.example/" "http://" = false ∧
    strStarts " https://e.example/" "https://" = false := ⟨rfl, rfl, rfl⟩

/-- Claim C5 (amended): `sanitize_url` returns null for every non-string,
and on a string `s` it returns `some u` exactly when `u` is `s` stripped of
surrounding whitespace and the stripped string starts with `http://` or
`https://`, has length at most 2048, and its lowercased form contains none
of the fixed dangerous tokens; the checks run on the stripped string, not
on `s` itself. -/
theorem C5_amended_stripped :
    (∀ v : JValue, (∀ s, v ≠ .str s) → sanitize_url v = none) ∧
    (∀ s u : String,
      sanitize_url (.str s) = some u ↔
        (u = pyStrip s ∧
         (strStarts u "http://" || strStarts u "https://") = true ∧
         u.length ≤ 2048 ∧
         ∀ d ∈ dangerTokens, containsSub (lowerChars u.data) d.data = false)) := by
  constructor
  · intro v hv
    cases v with
    | str s => exact absurd rfl (hv s)
    | null => rfl
    | bool b => rfl
    | num n => rfl
    | fnum f => rfl
    | arr xs => rfl
    | obj kvs => rfl
  · intro s u
    by_cases h1 : (strStarts (pyStrip s) "http://" || strStarts (pyStrip s) "https://") = true
    · by_cases h2 :
          (dangerTokens.any fun d => containsSub (lowerChars (pyStrip s).data) d.data) = true
      · constructor
        · intro h; exfalso; simp [sanitize_url, sanitizeUrlStr, h1, h2] at h
        · rintro ⟨rfl, -, -, htok⟩
          exfalso
          rw [List.any_eq_true] at h2
          obtain ⟨d, hd, hc⟩ := h2
          rw [htok d hd] at hc
          exact Bool.false_ne_true hc
      · simp only [Bool.not_eq_true] at h2
        by_cases h3 : (pyStrip s).length > 2048
        · constructor
          · intro h; exfalso; simp [sanitize_url, sanitizeUrlStr, h1, h2, h3] at h
          · rintro ⟨rfl, -, hlen, -⟩; omega
        · constructor
          · intro h
            have heq : some (pyStrip s) = some u := by
              simpa [sanitize_url, sanitizeUrlStr, h1, h2, h3] using h
            obtain rfl := Option.some.inj heq
            refine ⟨rfl, h1, by omega, ?_⟩
            intro d hd
            exact Bool.eq_false_iff.mpr (List.any_eq_false.mp h2 d hd)
          · rintro ⟨rfl, -, -, -⟩
            simp [sanitize_url, sanitizeUrlStr, h1, h2, h3]
    · simp only [Bool.not_eq_true] at h1
      constructor
      · intro h; exfalso; simp [sanitize_url, sanitizeUrlStr, h1] at h
      · rintro ⟨rfl, hstart, -, -⟩
        rw [hstart] at h1
        exact absurd h1 (by simp)

/-- Claim C5 amended witness at concrete inputs: a non-string yields null and
a clean https URL is returned unchanged. -/
theorem C5_amended_stripped_witness :
    sanitize_url .null = none ∧
    sanitize_url (.str "https://ok.example/") = some "https://ok.example/" :=
  ⟨C5_amended_stripped.1 .null (fun s h => JValue.noConfusion h),
   (C5_amended_stripped.2 "https://ok.example/" "https://ok.example/").mpr
     ⟨by rfl, by decide, by decide, by decide⟩⟩

/-- Claim C6: for every value and every depth greater than 20,
`reconstruct_value` returns null unconditionally, before any sanitization,
truncation or recursion (in the fuel formulation the guard is exactly the
exhausted-fuel case, which ignores the value entirely). -/
theorem C6_depth_guard (v : JValue) (d : Nat) (h : d > 20) :
    reconstruct_value v d = .null := by
  unfold reconstruct_value
  have hz : MAX_NESTING_DEPTH + 1 - d = 0 := by
    simp only [MAX_NESTING_DEPTH]
    omega
  rw [hz]
  rfl

/-- Claim C6 witness: a nested value at depth 25 reconstructs to null. -/
theorem C6_depth_guard_witness :
    25 > 20 ∧ reconstruct_value (.arr [.arr [.arr [.str "x"]]]) 25 = .null :=
  ⟨by decide, C6_depth_guard (.arr [.arr [.arr [.str "x"]]]) 25 (by decide)⟩

/-- Claim C7 counterexample: `reconstruct_fetcher_output` is not total over
all parsed JSON documents: on the document `5` the membership test
`"metadata" in data` raises TypeError, and even on an object-rooted document
a counter holding the float Infinity (which Python json parses) makes
`int()` raise OverflowError, which `except (ValueError, TypeError)` does not
catch. -/
theorem C7_counterexample :
    reconstruct_fetcher_outputE (.num 5) "" = .error .typeError ∧
    reconstruct_fetcher_outputE
      (.obj [("data", .obj [("total_scraped", .fnum .inf)])]) "" =
      .error .overflowError := ⟨rfl, rfl⟩

/-- Claim C7 (amended): `reconstruct_fetcher_output` is total on every input
whose top level is a JSON object and whose counter fields hold no infinite
float: whatever the other field values (non-integer counters, non-dict
articles, non-dict feed_errors entries included), it returns normally and
agrees with the pure reconstruction; a top-level null, boolean or number
raises TypeError at the membership test, and a counter field holding
Infinity or -Infinity raises the uncaught OverflowError of `int()`. -/
theorem ebind_ok {α β : Type} (a : α) (f : α → Except PyErr β) :
    ((Except.ok a : Except PyErr α) >>= f) = f a := rfl

theorem epure_eq {α : Type} (a : α) : (pure a : Except PyErr α) = Except.ok a := rfl

theorem metaPartE_obj (kvs : List (String × JValue)) (now : String) :
    metaPartE (.obj kvs) now =
      .ok (match jLookup kvs "metadata" with
           | some (.obj mkvs) => metaPart mkvs now
           | _ => []) := by
  cases hm : jLookup kvs "metadata" with
  | none => simp [metaPartE, pyContains, jContains, hm, pySubscript, ebind_ok, epure_eq]
  | some m =>
    cases m <;> simp [metaPartE, pyContains, jContains, hm, pySubscript, ebind_ok, epure_eq]

theorem counterEntryE_ok (dkvs : List (String × JValue)) (f : String)
    (h : (match jLookup dkvs f with
          | some v => !counterRaises v
          | none => true) = true) :
    counterEntryE dkvs f =
      .ok (match jLookup dkvs f with
           | some v => [(f, JValue.num (clampCounter (pyIntOpt v)))]
           | none => []) := by
  unfold counterEntryE
  cases hl : jLookup dkvs f with
  | none => rfl
  | some v =>
    rw [hl] at h
    cases v with
    | fnum pf =>
      cases pf with
      | inf => simp [counterRaises] at h
      | negInf => simp [counterRaises] at h
      | nan => rfl
      | finite t big => rfl
    | null => rfl
    | bool b => rfl
    | num n => rfl
    | str s => rfl
    | arr xs => rfl
    | obj kvs2 => rfl

theorem countersE_ok (dkvs : List (String × JValue))
    (h : counterNames.all (fun f =>
      match jLookup dkvs f with
      | some v => !counterRaises v
      | none => true) = true) :
    countersE dkvs = .ok (dataCountersBlock dkvs) := by
  have hall := List.all_eq_true.mp h
  have e1 := counterEntryE_ok dkvs "total_scraped" (hall _ (by decide))
  have e2 := counterEntryE_ok dkvs "total_fetched" (hall _ (by decide))
  have e3 := counterEntryE_ok dkvs "total_relevant" (hall _ (by decide))
  unfold countersE
  simp only [e1, e2, e3, ebind_ok, epure_eq]
  unfold dataCountersBlock
  cases h1 : jLookup dkvs "total_scraped" <;>
    cases h2 : jLookup dkvs "total_fetched" <;>
      cases h3 : jLookup dkvs "total_relevant" <;>
        simp [fieldBlock, counterNames, h1, h2, h3]

theorem dataCleanE_ok (dkvs : List (String × JValue))
    (h : counterNames.all (fun f =>
      match jLookup dkvs f with
      | some v => !counterRaises v
      | none => true) = true) :
    dataCleanE dkvs = .ok (dataClean dkvs) := by
  unfold dataCleanE
  rw [countersE_ok dkvs h]
  simp only [ebind_ok, epure_eq]
  unfold dataClean explicitData
  rfl

theorem dataPartE_obj (kvs : List (String × JValue)) (h : counterOverflowFree kvs = true) :
    dataPartE (.obj kvs) =
      .ok (match jLookup kvs "data" with
           | some (.obj dkvs) => [("data", JValue.obj (dataClean dkvs))]
           | _ => []) := by
  cases hd : jLookup kvs "data" with
  | none => simp [dataPartE, pyContains, jContains, hd, pySubscript, ebind_ok, epure_eq]
  | some dv =>
    cases dv with
    | obj dkvs =>
      have hc : counterNames.all (fun f =>
          match jLookup dkvs f with
          | some v => !counterRaises v
          | none => true) = true := by
        unfold counterOverflowFree at h
        rw [hd] at h
        exact h
      simp [dataPartE, pyContains, jContains, hd, pySubscript, ebind_ok, epure_eq,
        dataCleanE_ok dkvs hc]
    | null => simp [dataPartE, pyContains, jContains, hd, pySubscript, ebind_ok, epure_eq]
    | bool b => simp [dataPartE, pyContains, jContains, hd, pySubscript, ebind_ok, epure_eq]
    | num n => simp [dataPartE, pyContains, jContains, hd, pySubscript, ebind_ok, epure_eq]
    | fnum f => simp [dataPartE, pyContains, jContains, hd, pySubscript, ebind_ok, epure_eq]
    | str s => simp [dataPartE, pyContains, jContains, hd, pySubscript, ebind_ok, epure_eq]
    | arr xs => simp [dataPartE, pyContains, jContains, hd, pySubscript, ebind_ok, epure_eq]

theorem C7_amended_total (kvs : List (String × JValue)) (now : String)
    (h : counterOverflowFree kvs = true) :
    reconstruct_fetcher_outputE (.obj kvs) now = .ok (reconstruct_fetcher_output kvs now) := by
  unfold reconstruct_fetcher_outputE reconstruct_fetcher_output
  rw [metaPartE_obj, dataPartE_obj kvs h]
  rfl

/-- Claim C7 amended witness: an object-rooted document with a numeric-string
counter is overflow-free and reconstructs without raising, agreeing with the
pure reconstruction. -/
theorem C7_amended_total_witness :
    counterOverflowFree [("data", .obj [("total_scraped", .str "7")])] = true ∧
    reconstruct_fetcher_outputE (.obj [("data", .obj [("total_scraped", .str "7")])]) "T" =
      .ok (reconstruct_fetcher_output [("data", .obj [("total_scraped", .str "7")])] "T") :=
  ⟨rfl, C7_amended_total [("data", .obj [("total_scraped", .str "7")])] "T" rfl⟩

/-- Claim C2 counterexample: an article carrying both a valid `source_url`
and a valid `url` keeps both URL fields in the reconstructed article; the
first match does not win and the others are not discarded. -/
theorem C2_counterexample :
    reconstruct_article (.obj
      [("source_url", .str "https://a.example/x"), ("url", .str "https://b.example/y")]) =
      some (.obj
        [("source_url", .str "https://a.example/x"), ("url", .str "https://b.example/y")]) := rfl

theorem articleClean_urlfield_mem (kvs : List (String × JValue)) (f : String)
    (hf : f ∈ urlFieldTriple) :
    jLookup (articleClean kvs) f =
      (jLookup kvs f).bind (fun v => (sanitize_url v).map JValue.str) := by
  have h1 : f ∉ (["title", "source"] : List String) :=
    (by decide : ∀ x ∈ urlFieldTriple, x ∉ (["title", "source"] : List String)) f hf
  have h3 : f ∉ bodyFieldNames :=
    (by decide : ∀ x ∈ urlFieldTriple, x ∉ bodyFieldNames) f hf
  have h4 : f ∉ (["date"] : List String) :=
    (by decide : ∀ x ∈ urlFieldTriple, x ∉ (["date"] : List String)) f hf
  have h5 : f ∉ optFieldNames :=
    (by decide : ∀ x ∈ urlFieldTriple, x ∉ optFieldNames) f hf
  have h6 : f ∉ (["relevance_tags"] : List String) :=
    (by decide : ∀ x ∈ urlFieldTriple, x ∉ (["relevance_tags"] : List String)) f hf
  rw [articleClean_lookup,
    show jLookup (cleanTitleSource kvs) f = none from
      fieldBlock_lookup_of_not_mem _ _ _ h1,
    show jLookup (cleanUrls kvs) f =
        ((jLookup kvs f).bind (fun v => (sanitize_url v).map JValue.str)) from
      fieldBlock_lookup_of_mem _ _ _ (by decide) hf,
    show jLookup (cleanBodies kvs) f = none from
      fieldBlock_lookup_of_not_mem _ _ _ h3,
    show jLookup (fieldBlock ["date"] (fun _ => articleDateOpt kvs)) f = none from
      fieldBlock_lookup_of_not_mem _ _ _ h4,
    show jLookup (cleanOpts kvs) f = none from
      fieldBlock_lookup_of_not_mem _ _ _ h5,
    show jLookup (fieldBlock ["relevance_tags"] (fun _ => articleTagsOpt kvs)) f = none from
      fieldBlock_lookup_of_not_mem _ _ _ h6]
  cases (jLookup kvs f).bind (fun v => (sanitize_url v).map JValue.str) <;> simp [optOr]

/-- Claim C2 (amended): every one of the URL fields `source_url`, `url`,
`link` that is present with a value accepted by `sanitize_url` is kept in
the rebuilt clean object under its own key — all valid URL fields are
retained, not only the first, and none is discarded or merged; whenever
`reconstruct_article` emits an article at all, the emitted object is
exactly that clean object, and a valid `source_url` guarantees it is
emitted. -/
theorem C2_amended_all_kept (kvs : List (String × JValue)) (f : String) (v : JValue)
    (u : String) (hf : f ∈ urlFieldTriple)
    (hv : jLookup kvs f = some v) (hu : sanitize_url v = some u) :
    jLookup (articleClean kvs) f = some (.str u) ∧
    (reconstruct_article (.obj kvs) = none ∨
     reconstruct_article (.obj kvs) = some (.obj (articleClean kvs))) ∧
    (f = "source_url" →
      reconstruct_article (.obj kvs) = some (.obj (articleClean kvs))) := by
  have hlook : jLookup (articleClean kvs) f = some (.str u) := by
    rw [articleClean_urlfield_mem kvs f hf, hv]
    simp [hu]
  refine ⟨hlook, ?_, ?_⟩
  · cases hg : (pyTruthy (jLookup (articleClean kvs) "title") ||
        pyTruthy (jLookup (articleClean kvs) "source_url")) with
    | false => left; simp [reconstruct_article, hg]
    | true => right; simp [reconstruct_article, hg]
  · rintro rfl
    have ht : pyTruthy (jLookup (articleClean kvs) "source_url") = true := by
      rw [hlook]
      simp [pyTruthy, sanitize_url_some_ne_empty v u hu]
    simp [reconstruct_article, ht]

/-- Claim C2 amended witness at the single-key `link` case: the valid link
is kept under its own key in the clean object. -/
theorem C2_amended_all_kept_witness :
    jLookup (articleClean [("link", .str "https://l.example/")]) "link" =
      some (.str "https://l.example/") ∧
    (reconstruct_article (.obj [("link", .str "https://l.example/")]) = none ∨
     reconstruct_article (.obj [("link", .str "https://l.example/")]) =
       some (.obj (articleClean [("link", .str "https://l.example/")]))) ∧
    ("link" = "source_url" →
      reconstruct_article (.obj [("link", .str "https://l.example/")]) =
        some (.obj (articleClean [("link", .str "https://l.example/")]))) :=
  C2_amended_all_kept [("link", .str "https://l.example/")] "link"
    (.str "https://l.example/") "https://l.example/" (by decide) rfl rfl

/-- Claim C3 counterexample: the key `source_url` is explicitly handled and
its value here is rejected by `sanitize_url`, so the explicit phase adds no
entry; the generic loop then reprocesses the key anyway, so the sanitized
string reappears in the output data section, where the claim says the
generic reconstructor is never applied to a handled key. -/
theorem C3_counterexample :
    sanitize_url (.str "javascript:x") = none ∧
    jLookup (explicitData [("source_url", .str "javascript:x")]) "source_url" = none ∧
    jLookup (dataClean [("source_url", .str "javascript:x")]) "source_url" =
      some (.str "javascript:x") := ⟨rfl, rfl, rfl⟩

/-- Claim C3 (amended): the generic loop guards on membership in the
already-built output, not on the handled-key set: every input data key
fills its output slot with the generically reconstructed value whenever the
explicit phase left no entry for it — which covers every key outside the
handled set, and also handled keys whose explicit processing produced no
entry (such as a rejected `source_url`). -/
theorem C3_amended_generic (kvs dkvs : List (String × JValue)) (now k : String) (v : JValue)
    (hd : jLookup kvs "data" = some (.obj dkvs)) (hv : jLookup dkvs k = some v) :
    jLookup (reconstruct_fetcher_output kvs now) "data" = some (.obj (dataClean dkvs)) ∧
    (jLookup (explicitData dkvs) k = none →
      jLookup (dataClean dkvs) k = some (reconstruct_value v 0)) ∧
    (k ∉ handledKeyNames → jLookup (explicitData dkvs) k = none) := by
  refine ⟨reconstruct_output_data_lookup kvs dkvs now hd, ?_, ?_⟩
  · intro hexp
    unfold dataClean
    rw [genericAdd_lookup, hexp, hv]
    rfl
  · intro hk
    have n1 : k ∉ (["date"] : List String) := by
      intro m
      obtain rfl := List.mem_singleton.mp m
      exact hk (by decide)
    have n2 : k ∉ (["source_url"] : List String) := by
      intro m
      obtain rfl := List.mem_singleton.mp m
      exact hk (by decide)
    have n3 : k ∉ counterNames := by
      intro m
      simp only [counterNames, List.mem_cons, List.mem_singleton, List.not_mem_nil,
        or_false] at m
      rcases m with rfl | rfl | rfl <;> exact hk (by decide)
    have n4 : k ∉ (["articles"] : List String) := by
      intro m
      obtain rfl := List.mem_singleton.mp m
      exact hk (by decide)
    have n5 : k ∉ (["error"] : List String) := by
      intro m
      obtain rfl := List.mem_singleton.mp m
      exact hk (by decide)
    have n6 : k ∉ (["feed_errors"] : List String) := by
      intro m
      obtain rfl := List.mem_singleton.mp m
      exact hk (by decide)
    unfold explicitData explicitDataWith dataCountersBlock
    simp only [jLookup_append,
      fieldBlock_lookup_none _ _ n1, fieldBlock_lookup_none _ _ n2,
      fieldBlock_lookup_none _ _ n3, fieldBlock_lookup_none _ _ n4,
      fieldBlock_lookup_none _ _ n5, fieldBlock_lookup_none _ _ n6,
      optOr_none]

/-- Claim C3 amended witness: a custom key rejected by no explicit handler
survives through the generic reconstructor. -/
theorem C3_amended_generic_witness :
    jLookup (reconstruct_fetcher_output [("data", .obj [("custom_field", .num 5)])] "T")
      "data" = some (.obj (dataClean [("custom_field", .num 5)])) ∧
    (jLookup (explicitData [("custom_field", .num 5)]) "custom_field" = none →
      jLookup (dataClean [("custom_field", .num 5)]) "custom_field" =
        some (reconstruct_value (.num 5) 0)) ∧
    ("custom_field" ∉ handledKeyNames →
      jLookup (explicitData [("custom_field", .num 5)]) "custom_field" = none) :=
  C3_amended_generic [("data", .obj [("custom_field", .num 5)])]
    [("custom_field", .num 5)] "T" "custom_field" (.num 5) rfl rfl

theorem vbind_ok {α β : Type} (a : α) (f : α → Except VError β) :
    ((Except.ok a : Except VError α) >>= f) = f a := rfl

theorem validate_value_str (s p : String) (h : check_string_content s p = .ok ()) :
    validate_value (.str s) p =
      if is_url_field p && startsHttp s then check_url s p else protoScan s p := by
  simp [validate_value, h, vbind_ok]

/-- Claim C4 counterexample: the path `url.note` has last segment `note`,
which is not a URL-bearing name, and the string passes both the
suspicious-pattern scan and the dangerous-scheme scan, so by the claim it
should not be URL-checked and validation should pass; the code URL-checks
it because an earlier segment is `url`, and rejects it as path
traversal. -/
theorem C4_counterexample :
    check_string_content "https://a.example/../b" "url.note" = .ok () ∧
    protoScan "https://a.example/../b" "url.note" = .ok () ∧
    validate_value (.str "https://a.example/../b") "url.note" =
      .error (.pathTraversal "url.note") := ⟨rfl, rfl, rfl⟩

/-- Claim C4 (amended): a string that passes the content scan is URL-checked
exactly when SOME segment of its normalized field path (not necessarily the
last) is a URL-bearing name and the value begins with `http://` or
`https://`; when no segment is URL-bearing the string only gets the
dangerous-scheme scan. -/
theorem C4_amended_any_segment (p s : String)
    (hok : check_string_content s p = .ok ()) :
    ((∃ part ∈ pathParts p, part ∈ urlFieldNames) → startsHttp s = true →
      validate_value (.str s) p = check_url s p) ∧
    ((∀ part ∈ pathParts p, part ∉ urlFieldNames) →
      validate_value (.str s) p = protoScan s p) := by
  constructor
  · intro hseg hhttp
    have hu : is_url_field p = true := by
      unfold is_url_field
      rw [List.any_eq_true]
      obtain ⟨part, hp, hm⟩ := hseg
      refine ⟨part, hp, ?_⟩
      rw [List.any_eq_true]
      exact ⟨part, hm, by simp⟩
    rw [validate_value_str s p hok, hu, hhttp]
    simp
  · intro hseg
    have hu : is_url_field p = false := by
      unfold is_url_field
      rw [List.any_eq_false]
      intro part hp hinner
      rw [List.any_eq_true] at hinner
      obtain ⟨u, hu', hbeq⟩ := hinner
      obtain rfl : part = u := by simpa [beq_iff_eq] using hbeq
      exact hseg part hp hu'
    rw [validate_value_str s p hok, hu]
    simp

/-- Claim C4 amended witness: at the path `data.articles[0].url`, whose
normalized segments include the URL-bearing name `url`, an http URL is
routed to the URL check. -/
theorem C4_amended_any_segment_witness :
    validate_value (.str "https://example.org/x") "data.articles[0].url" =
      check_url "https://example.org/x" "data.articles[0].url" :=
  (C4_amended_any_segment "data.articles[0].url" "https://example.org/x" rfl).1
    (by decide) rfl

theorem articleClean_ts_mem (kvs : List (String × JValue)) (f : String)
    (hf : f ∈ (["title", "source"] : List String)) :
    jLookup (articleClean kvs) f =
      (jLookup kvs f).bind (fun v =>
        let s := sanitize_string (pyStr v) 500
        if s == "" then none else some (.str s)) := by
  have h2 : f ∉ urlFieldTriple :=
    (by decide : ∀ x ∈ (["title", "source"] : List String), x ∉ urlFieldTriple) f hf
  have h3 : f ∉ bodyFieldNames :=
    (by decide : ∀ x ∈ (["title", "source"] : List String), x ∉ bodyFieldNames) f hf
  have h4 : f ∉ (["date"] : List String) :=
    (by decide : ∀ x ∈ (["title", "source"] : List String),
      x ∉ (["date"] : List String)) f hf
  have h5 : f ∉ optFieldNames :=
    (by decide : ∀ x ∈ (["title", "source"] : List String), x ∉ optFieldNames) f hf
  have h6 : f ∉ (["relevance_tags"] : List String) :=
    (by decide : ∀ x ∈ (["title", "source"] : List String),
      x ∉ (["relevance_tags"] : List String)) f hf
  rw [articleClean_lookup,
    show jLookup (cleanTitleSource kvs) f =
        ((jLookup kvs f).bind (fun v =>
          let s := sanitize_string (pyStr v) 500
          if s == "" then none else some (.str s))) from
      fieldBlock_lookup_of_mem _ _ _ (by decide) hf,
    show jLookup (cleanUrls kvs) f = none from
      fieldBlock_lookup_of_not_mem _ _ _ h2,
    show jLookup (cleanBodies kvs) f = none from
      fieldBlock_lookup_of_not_mem _ _ _ h3,
    show jLookup (fieldBlock ["date"] (fun _ => articleDateOpt kvs)) f = none from
      fieldBlock_lookup_of_not_mem _ _ _ h4,
    show jLookup (cleanOpts kvs) f = none from
      fieldBlock_lookup_of_not_mem _ _ _ h5,
    show jLookup (fieldBlock ["relevance_tags"] (fun _ => articleTagsOpt kvs)) f = none from
      fieldBlock_lookup_of_not_mem _ _ _ h6]
  cases (jLookup kvs f).bind (fun v =>
      let s := sanitize_string (pyStr v) 500
      if s == "" then none else some (JValue.str s)) <;> simp [optOr]

/-- Claim C9 counterexample: a non-string `date` value IS dropped: its
stringified form `123` fails the date-shape test, so the field is absent
from the reconstructed article, contradicting the claim that non-string
values of `date` are not dropped. -/
theorem C9_counterexample :
    reconstruct_article (.obj [("title", .str "X"), ("date", .num 123)]) =
      some (.obj [("title", .str "X")]) := rfl

/-- Claim C9 (amended): a non-string value for a body field
(`body`, `body_text`, `content`, `summary`, `description`), a short optional
field (`language`, `category`, `author`), `title`/`source` (kept when the
sanitized coercion is nonempty), or a `relevance_tags` element is coerced to
its Python string representation by `str()` and then sanitized — for
example `body: 123` yields body `"123"`; a non-string `date`, however, is
coerced and then dropped by the date-shape check. -/
theorem C9_amended_coercion (kvs : List (String × JValue)) :
    (∀ f ∈ bodyFieldNames, ∀ v, jLookup kvs f = some v →
      jLookup (articleClean kvs) f =
        some (.str (sanitize_string (pyStr v) MAX_STRING_LENGTH))) ∧
    (∀ f ∈ optFieldNames, ∀ v, jLookup kvs f = some v →
      jLookup (articleClean kvs) f = some (.str (sanitize_string (pyStr v) 100))) ∧
    (∀ f ∈ (["title", "source"] : List String), ∀ v, jLookup kvs f = some v →
      sanitize_string (pyStr v) 500 ≠ "" →
      jLookup (articleClean kvs) f = some (.str (sanitize_string (pyStr v) 500))) ∧
    (∀ ts, jLookup kvs "relevance_tags" = some (.arr ts) →
      jLookup (articleClean kvs) "relevance_tags" =
        some (.arr ((ts.take 20).map (fun t => .str (sanitize_string (pyStr t) 50))))) := by
  refine ⟨?_, ?_, ?_, ?_⟩
  · intro f hf v hv
    rw [articleClean_body_mem kvs f hf, hv]
    rfl
  · intro f hf v hv
    rw [articleClean_opt_mem kvs f hf, hv]
    rfl
  · intro f hf v hv hne
    rw [articleClean_ts_mem kvs f hf, hv]
    have hbeq : (sanitize_string (pyStr v) 500 == "") = false := by
      simp only [beq_eq_false_iff_ne, ne_eq]
      exact hne
    simp [hbeq]
    exact hne
  · intro ts hts
    rw [articleClean_tags]
    simp [articleTagsOpt, hts]

/-- Claim C9 amended witness: a numeric body is coerced to its decimal
string and kept. -/
theorem C9_amended_coercion_witness :
    jLookup (articleClean [("title", .str "X"), ("body", .num 123)]) "body" =
      some (.str (sanitize_string (pyStr (.num 123)) MAX_STRING_LENGTH)) :=
  (C9_amended_coercion [("title", .str "X"), ("body", .num 123)]).1 "body"
    (by decide) (.num 123) rfl

/-- Claim C10: when the input has no dict-valued `metadata` key the output
has no `metadata` key at all (so no `cleaned_at` stamp), when it has no
dict-valued `data` key the output has no `data` key, and the empty document
reconstructs to the empty document rather than a canonical envelope. -/
theorem C10_missing_sections (kvs : List (String × JValue)) (now : String) :
    ((∀ mkvs, jLookup kvs "metadata" ≠ some (.obj mkvs)) →
      jLookup (reconstruct_fetcher_output kvs now) "metadata" = none) ∧
    ((∀ dkvs, jLookup kvs "data" ≠ some (.obj dkvs)) →
      jLookup (reconstruct_fetcher_output kvs now) "data" = none) ∧
    reconstruct_fetcher_output [] now = [] := by
  refine ⟨?_, ?_, rfl⟩
  · intro hm
    unfold reconstruct_fetcher_output
    rw [jLookup_append]
    have hA : jLookup (match jLookup kvs "metadata" with
        | some (.obj mkvs) => metaPart mkvs now
        | _ => []) "metadata" = none := by
      cases hmm : jLookup kvs "metadata" with
      | none => rfl
      | some m =>
        cases m with
        | obj mkvs => exact absurd hmm (hm mkvs)
        | null => rfl
        | bool b => rfl
        | num n => rfl
        | fnum f => rfl
        | str s => rfl
        | arr xs => rfl
    have hB : jLookup (match jLookup kvs "data" with
        | some (.obj dkvs) => [("data", JValue.obj (dataClean dkvs))]
        | _ => []) "metadata" = none := by
      cases hd : jLookup kvs "data" with
      | none => rfl
      | some dv => cases dv <;> rfl
    rw [hA, hB]
    rfl
  · intro hdn
    unfold reconstruct_fetcher_output
    rw [jLookup_append]
    have hA : jLookup (match jLookup kvs "metadata" with
        | some (.obj mkvs) => metaPart mkvs now
        | _ => []) "data" = none := by
      cases hmm : jLookup kvs "metadata" with
      | none => rfl
      | some m => cases m <;> rfl
    have hB : jLookup (match jLookup kvs "data" with
        | some (.obj dkvs) => [("data", JValue.obj (dataClean dkvs))]
        | _ => []) "data" = none := by
      cases hd : jLookup kvs "data" with
      | none => rfl
      | some dv =>
        cases dv with
        | obj dkvs => exact absurd hd (hdn dkvs)
        | null => rfl
        | bool b => rfl
        | num n => rfl
        | fnum f => rfl
        | str s => rfl
        | arr xs => rfl
    rw [hA, hB]
    rfl

/-- Claim C10 witness: a string-valued `metadata` key yields an output with
neither a `metadata` nor a `data` key. -/
theorem C10_missing_sections_witness :
    jLookup (reconstruct_fetcher_output [("metadata", .str "nope")] "T") "metadata" = none ∧
    jLookup (reconstruct_fetcher_output [("metadata", .str "nope")] "T") "data" = none :=
  ⟨(C10_missing_sections [("metadata", .str "nope")] "T").1
      (fun mkvs h => by simp [jLookup] at h),
   (C10_missing_sections [("metadata", .str "nope")] "T").2.1
      (fun dkvs h => by simp [jLookup] at h)⟩

theorem articleClean_title_cases (kvs : List (String × JValue)) :
    jLookup (articleClean kvs) "title" = none ∨
    ∃ s, jLookup (articleClean kvs) "title" = some (.str s) ∧ s.isEmpty = false := by
  rw [articleClean_title]
  cases jLookup kvs "title" with
  | none => left; rfl
  | some v =>
    by_cases hs : sanitize_string (pyStr v) 500 = ""
    · left; simp [hs]
    · right
      refine ⟨sanitize_string (pyStr v) 500, by simp [hs], ?_⟩
      exact Bool.eq_false_iff.mpr (fun hb => hs ((String.isEmpty_iff _).mp hb))

theorem articleClean_src_cases (kvs : List (String × JValue)) :
    jLookup (articleClean kvs) "source_url" = none ∨
    ∃ u, jLookup (articleClean kvs) "source_url" = some (.str u) ∧ u.isEmpty = false := by
  rw [articleClean_source_url]
  cases hv : jLookup kvs "source_url" with
  | none => left; rfl
  | some v =>
    cases hu : sanitize_url v with
    | none => left; simp [hu]
    | some u => right; exact ⟨u, by simp [hu], sanitize_url_some_ne_empty v u hu⟩

/-- Claim C8: `reconstruct_article` on a dict returns null exactly when the
rebuilt object has neither a nonempty `title` string nor a `source_url`
key; in particular `\x7bbody: "text"\x7d` reconstructs to null while
`\x7btitle: "X"\x7d` survives as exactly `\x7btitle: "X"\x7d`, so an empty
object is never emitted. -/
theorem C8_gate (kvs : List (String × JValue)) :
    (reconstruct_article (.obj kvs) = none ↔
      ((∀ s, jLookup (articleClean kvs) "title" = some (.str s) → s = "") ∧
       jLookup (articleClean kvs) "source_url" = none)) ∧
    reconstruct_article (.obj [("body", .str "text")]) = none ∧
    reconstruct_article (.obj [("title", .str "X")]) = some (.obj [("title", .str "X")]) := by
  refine ⟨?_, rfl, rfl⟩
  have hiff : reconstruct_article (.obj kvs) = none ↔
      (pyTruthy (jLookup (articleClean kvs) "title") ||
       pyTruthy (jLookup (articleClean kvs) "source_url")) = false := by
    constructor
    · intro h
      by_cases hg : (pyTruthy (jLookup (articleClean kvs) "title") ||
          pyTruthy (jLookup (articleClean kvs) "source_url")) = true
      · exfalso; simp [reconstruct_article, hg] at h
      · simpa using hg
    · intro hg
      simp [reconstruct_article, hg]
  have ht : (pyTruthy (jLookup (articleClean kvs) "title") = false) ↔
      (∀ s, jLookup (articleClean kvs) "title" = some (.str s) → s = "") := by
    rcases articleClean_title_cases kvs with hn | ⟨s, hs, hse⟩
    · rw [hn]
      simp [pyTruthy]
    · rw [hs]
      have hsne : s ≠ "" := fun e => by
        rw [e] at hse
        exact absurd hse (by decide)
      constructor
      · intro h
        exfalso
        simp [pyTruthy, hse] at h
      · intro h
        exact absurd (h s rfl) hsne
  have hsrc : (pyTruthy (jLookup (articleClean kvs) "source_url") = false) ↔
      jLookup (articleClean kvs) "source_url" = none := by
    rcases articleClean_src_cases kvs with hn | ⟨u, hu, hue⟩
    · rw [hn]
      simp [pyTruthy]
    · rw [hu]
      constructor
      · intro h
        exfalso
        simp [pyTruthy, hue] at h
      · intro h
        exact absurd h (by simp)
  rw [hiff, Bool.or_eq_false_iff]
  exact and_congr ht hsrc

/-- Claim C8 witness: both concrete article examples, obtained from the
gate characterization. -/
theorem C8_gate_witness :
    reconstruct_article (.obj [("body", .str "text")]) = none ∧
    reconstruct_article (.obj [("title", .str "X")]) = some (.obj [("title", .str "X")]) :=
  ⟨(C8_gate []).2.1, (C8_gate []).2.2⟩

/-- Claim C1: the Reconstructor's output is NOT always accepted by the
Validator: on the input document with metadata `source_name: "x"` and data
`error: "javascript:alert"`, the reconstruction passes the structural check
but `validate_value` rejects the sanitized error string at path
`data.error`, because `sanitize_string` does not remove the deny-listed
token `javascript:` from plain text. -/
theorem C1_reconstructed_output_fails_validator :
    check_json_structure (.obj (reconstruct_fetcher_output
      [("metadata", .obj [("source_name", .str "x")]),
       ("data", .obj [("error", .str "javascript:alert")])] "2026-02-03T00:00:00Z")) =
      .ok () ∧
    validate_value (.obj (reconstruct_fetcher_output
      [("metadata", .obj [("source_name", .str "x")]),
       ("data", .obj [("error", .str "javascript:alert")])] "2026-02-03T00:00:00Z")) "" =
      .error (.suspiciousPattern "data.error") := ⟨rfl, rfl⟩
